import Mathlib

/-!
Shallow embedding of the monitoring engine of the `wink` uptime-monitoring
daemon (Go sources under `internal/monitor`, `internal/storage`,
`internal/config` and the probe factory).

Conventions of the embedding:
* Go `int`/`int64` values are modelled as `Int` (the counters and timestamps
  involved never overflow in the scenarios the claims quantify over, so no
  `% 2^64` is applied); list lengths and capacities are `Nat`.
* Go `float64` uptime arithmetic is modelled exactly over `ℚ`; the quantities
  involved (`100·k/n` for window counts, and 2-decimal roundings thereof)
  differ by far more than the `float64` representation error, so the rational
  model decides the same (dis)equalities as the floating-point code.
* The wall clock (`time.Now().Unix()`) is passed explicitly as a `now : Int`
  parameter.
* `slog` logging and the best-effort `Dump()` file writes performed inside
  `Analyzer.Process` have no effect on in-memory state and are dropped;
  emitted `notify.AlertEvent`s are returned as an explicit list.
-/

namespace Wink

/-- `storage.LatencyPoint`: a single probe result with timestamp. -/
structure LatencyPoint where
  time : Int
  latency : Int
  up : Bool
  deriving DecidableEq, Repr

/-- `storage.Incident`: records a DOWN/UP state transition.
`typ` embeds the Go field `Type` (a reserved word in Lean). -/
structure Incident where
  typ : String
  startedAt : Int
  resolvedAt : Option Int
  duration : Int
  reason : String
  deriving DecidableEq, Repr

/-- `storage.MonitorHistory`: runtime state for a single monitor
(incidents are stored separately in `HistoryManager.incidents`). -/
structure MonitorHistory where
  uptime24h : ℚ
  uptime7d : ℚ
  uptime30d : ℚ
  latencyHistory : List LatencyPoint
  lastCheckTime : Int
  isUp : Bool
  deriving DecidableEq, Repr

/-- `monitor.monitorState`: runtime flapping-control state per target. -/
structure MonitorState where
  isUp : Bool
  failCount : Int
  reminderCount : Int
  deriving DecidableEq, Repr

/-- `notify.AlertEvent` (the fields `Analyzer.Process` fills in). -/
structure AlertEvent where
  monitorID : String
  monitorName : String
  typ : String
  target : String
  reason : String
  timestamp : Int
  deriving DecidableEq, Repr

/-- `monitor.ProbeResult`, with the latency already converted to integer
milliseconds as `Analyzer.Process` does (`int(result.Latency.Milliseconds())`). -/
structure ProbeResult where
  up : Bool
  latencyMs : Int
  error : String
  deriving DecidableEq, Repr

/-- `monitor.AnalyzeResult`: returned to the scheduler. -/
structure AnalyzeResult where
  isFailing : Bool
  deriving DecidableEq, Repr

/-- `incidentRetention.Seconds()` = 30 days in seconds. -/
def incidentRetentionSec : Int := 30 * 24 * 3600

/-- `storage.calcUptimeWindow`: percentage of up points among the points whose
timestamp lies within the window `[now - windowSec, now]`; 100 when the window
holds no point.  The Go loop counts `total` and `up` with
`p.Time >= cutoff`; the `float64` division is modelled exactly over `ℚ`. -/
def calcUptimeWindow (points : List LatencyPoint) (now windowSec : Int) : ℚ :=
  let cutoff := now - windowSec
  let total := (points.filter (fun p => cutoff ≤ p.time)).length
  let up := (points.filter (fun p => cutoff ≤ p.time && p.up)).length
  if total = 0 then 100 else (up : ℚ) / (total : ℚ) * 100

/-- `web.roundUptime` (internal/web/middleware.go): rounds to 2 decimal
places.  `math.Round` rounds half away from zero; on the non-negative values
uptime percentages take, this agrees with Mathlib's `round` (half up). -/
def roundUptime (v : ℚ) : ℚ :=
  (round (v * 100) : ℤ) / 100

/-- Fresh `&MonitorHistory{IsUp: true, LatencyHistory: []}` with Go zero
values for the remaining fields, as built by `HistoryManager.ensureMonitor`. -/
def freshMonitorHistory : MonitorHistory :=
  { uptime24h := 0, uptime7d := 0, uptime30d := 0
    latencyHistory := [], lastCheckTime := 0, isUp := true }

/-- `HistoryManager.ensureMonitor`, projected to a single target: the stored
history if present, a fresh one otherwise (`none` models absence of the key). -/
def ensureMonitor (h : Option MonitorHistory) : MonitorHistory :=
  h.getD freshMonitorHistory

/-- `HistoryManager.recalcUptime`: recompute the three rolling windows. -/
def recalcUptime (now : Int) (h : MonitorHistory) : MonitorHistory :=
  { h with
    uptime24h := calcUptimeWindow h.latencyHistory now (24 * 3600)
    uptime7d := calcUptimeWindow h.latencyHistory now (7 * 24 * 3600)
    uptime30d := calcUptimeWindow h.latencyHistory now (30 * 24 * 3600) }

/-- `HistoryManager.RecordProbe`, projected to a single target: append the
point, trim to `maxHistoryPts` dropping the oldest (`h.LatencyHistory[excess:]`),
update last-check time and up flag, recompute uptime windows. -/
def RecordProbe (maxHistoryPts : Nat) (now latencyMs : Int) (up : Bool)
    (h : Option MonitorHistory) : MonitorHistory :=
  let h := ensureMonitor h
  let appended := h.latencyHistory ++ [{ time := now, latency := latencyMs, up := up }]
  let trimmed :=
    if maxHistoryPts < appended.length then
      appended.drop (appended.length - maxHistoryPts)
    else appended
  recalcUptime now { h with latencyHistory := trimmed, lastCheckTime := now, isUp := up }

/-- An incident is open (unresolved) iff `ResolvedAt == nil`. -/
def Incident.isOpen (inc : Incident) : Bool :=
  inc.resolvedAt = none

/-- The body of the backward loop in `HistoryManager.RecordUp`, stated on the
reversed list: resolve the first open incident encountered, leave the rest. -/
def resolveFirstOpen (now : Int) : List Incident → List Incident
  | [] => []
  | inc :: rest =>
    if inc.resolvedAt = none then
      { inc with resolvedAt := some now, duration := now - inc.startedAt } :: rest
    else
      inc :: resolveFirstOpen now rest

/-- The incident effect of `HistoryManager.RecordUp`: walk the list from the
end and resolve the most recently opened unresolved incident, setting
`ResolvedAt = now` and `Duration = now - StartedAt`. -/
def recordUpIncidents (now : Int) (incs : List Incident) : List Incident :=
  (resolveFirstOpen now incs.reverse).reverse

/-- The incident effect of `HistoryManager.RecordDown`: append a fresh open
incident (`Type: "down"`, Go zero values for `ResolvedAt`/`Duration`). -/
def recordDownIncidents (now : Int) (reason : String) (incs : List Incident) :
    List Incident :=
  incs ++ [{ typ := "down", startedAt := now, resolvedAt := none
             duration := 0, reason := reason }]

/-- Combined per-target state of the engine, projecting the three id-keyed
maps (`Analyzer.states`, `HistoryManager.data.Monitors`,
`HistoryManager.incidents`) to a single target id.  Every operation of the
system touches these maps only at the id it is called with, so the per-target
projection is faithful for per-target properties.  `none` models absence of
the key. -/
structure TargetState where
  analyzer : Option MonitorState
  history : Option MonitorHistory
  incidents : Option (List Incident)
  deriving DecidableEq, Repr

/-- The never-probed target: no entry in any of the three maps. -/
def TargetState.initial : TargetState :=
  { analyzer := none, history := none, incidents := none }

/-- `Analyzer.ensureState`: the stored runtime state if present, otherwise a
fresh `&monitorState{isUp: true}` (Go zero values for the counters). -/
def ensureState (s : Option MonitorState) : MonitorState :=
  s.getD { isUp := true, failCount := 0, reminderCount := 0 }

/-- `HistoryManager.RecordDown`, on the combined per-target state:
`ensureMonitor`, set `IsUp = false`, append an open incident.
(`ensureMonitor` also materialises an empty incident list for the id.) -/
def RecordDown (now : Int) (reason : String) (ts : TargetState) : TargetState :=
  { ts with
    history := some { ensureMonitor ts.history with isUp := false }
    incidents := some (recordDownIncidents now reason (ts.incidents.getD [])) }

/-- `HistoryManager.RecordUp`, on the combined per-target state:
`ensureMonitor`, set `IsUp = true`, resolve the latest open incident. -/
def RecordUp (now : Int) (ts : TargetState) : TargetState :=
  { ts with
    history := some { ensureMonitor ts.history with isUp := true }
    incidents := some (recordUpIncidents now (ts.incidents.getD [])) }

/-- The unconditional `a.histMgr.RecordProbe(...)` call at the top of
`Analyzer.Process`; it also materialises the incident list for the id
(via `ensureMonitor`'s `hm.incidents[id] = make([]Incident, 0)` branch). -/
def recordStep (maxHistoryPts : Nat) (now : Int) (result : ProbeResult)
    (ts : TargetState) : TargetState :=
  { ts with
    history := some (RecordProbe maxHistoryPts now result.latencyMs result.up ts.history)
    incidents := some (ts.incidents.getD []) }

/-- `Analyzer.Process`: flapping control with hysteresis and reminder alerts.
Returns the new per-target state, the alert events emitted during the call
(in emission order), and the `AnalyzeResult` handed back to the scheduler.
The `Dump()` calls on transitions write files but do not change in-memory
state, so they do not appear. -/
def Process (maxHistoryPts : Nat) (now : Int)
    (monitorID monitorName target : String) (maxRetries reminderInterval : Int)
    (ts : TargetState) (result : ProbeResult) :
    TargetState × List AlertEvent × AnalyzeResult :=
  let state := ensureState ts.analyzer
  let ts := recordStep maxHistoryPts now result ts
  if result.up then
    -- Success path.
    let prevDown := !state.isUp
    let state := { state with failCount := 0, reminderCount := 0 }
    if prevDown then
      let state := { state with isUp := true }
      let ts := RecordUp now { ts with analyzer := some state }
      (ts,
       [{ monitorID := monitorID, monitorName := monitorName, typ := "up"
          target := target, reason := "", timestamp := now }],
       { isFailing := false })
    else
      ({ ts with analyzer := some state }, [], { isFailing := false })
  else
    -- Failure path.
    let state := { state with failCount := state.failCount + 1 }
    if state.isUp && maxRetries ≤ state.failCount then
      -- Transition: UP -> DOWN (initial alert).
      let state := { state with isUp := false, reminderCount := 0 }
      let ts := RecordDown now result.error { ts with analyzer := some state }
      (ts,
       [{ monitorID := monitorID, monitorName := monitorName, typ := "down"
          target := target, reason := result.error, timestamp := now }],
       { isFailing := true })
    else if !state.isUp && 0 < reminderInterval then
      -- Already DOWN: check whether to resend the alert.
      let state := { state with reminderCount := state.reminderCount + 1 }
      if reminderInterval ≤ state.reminderCount then
        let state := { state with reminderCount := 0 }
        ({ ts with analyzer := some state },
         [{ monitorID := monitorID, monitorName := monitorName, typ := "down"
            target := target, reason := result.error, timestamp := now }],
         { isFailing := true })
      else
        ({ ts with analyzer := some state }, [], { isFailing := true })
    else
      ({ ts with analyzer := some state }, [], { isFailing := true })

/-- `Analyzer.RemoveState`: discard the runtime flapping state of the target
(`delete(a.states, monitorID)`).  The scheduler calls this when a target
disappears from the desired set — on deletion and also on mere disabling;
the history store is *not* touched on this path. -/
def RemoveState (ts : TargetState) : TargetState :=
  { ts with analyzer := none }

/-- `HistoryManager.RemoveMonitor`: discard persisted history and incidents
(`delete(hm.data.Monitors, id); delete(hm.incidents, id)`).  Called by the
web deletion handler alongside the scheduler's `RemoveState`. -/
def RemoveMonitor (ts : TargetState) : TargetState :=
  { ts with history := none, incidents := none }

/-- One step a single target's state can undergo:
* `probe`: its loop produced a probe result which `Analyzer.Process` handles;
* `removeFull`: the target is deleted (web handler: `RemoveMonitor` on the
  store, scheduler reconciliation: `RemoveState` on the analyzer);
* `removeStateOnly`: the target is removed from the scheduler's desired set
  without store cleanup — this is what reconciliation does when a target is
  disabled (or deleted, with the store cleanup performed separately). -/
inductive Op where
  | probe (now : Int) (maxRetries reminderInterval : Int) (result : ProbeResult)
  | removeFull
  | removeStateOnly
  deriving DecidableEq, Repr

/-- Apply one operation; returns the new state and the events emitted. -/
def applyOp (maxHistoryPts : Nat) (monitorID monitorName target : String)
    (ts : TargetState) : Op → TargetState × List AlertEvent
  | .probe now maxRetries reminderInterval result =>
    let (ts, evs, _) :=
      Process maxHistoryPts now monitorID monitorName target maxRetries reminderInterval ts result
    (ts, evs)
  | .removeFull => (RemoveMonitor (RemoveState ts), [])
  | .removeStateOnly => (RemoveState ts, [])

/-- Run a sequence of operations, accumulating emitted events in order. -/
def runOps (maxHistoryPts : Nat) (monitorID monitorName target : String)
    (ts : TargetState) : List Op → TargetState × List AlertEvent
  | [] => (ts, [])
  | op :: rest =>
    let (ts', evs) := applyOp maxHistoryPts monitorID monitorName target ts op
    let (ts'', evs') := runOps maxHistoryPts monitorID monitorName target ts' rest
    (ts'', evs ++ evs')

/-- Number of open incidents recorded for the target. -/
def openCount (ts : TargetState) : Nat :=
  ((ts.incidents.getD []).filter Incident.isOpen).length

/-- A trace of probe results for one target, all processed with the same
configured failure threshold `T` and reminder cadence `R` (as the scheduler
does: the parameters come from the target's fixed configuration). -/
def probeTrace (T R : Int) (L : List (Int × ProbeResult)) : List Op :=
  L.map (fun p => .probe p.1 T R p.2)

/-! ### Step lemmas: `Analyzer.Process`, one scenario at a time -/

/-- Failed probe while UP, below threshold: only the failure counter moves. -/
theorem Process_fail_below (maxPts : Nat) (now : Int) (id name tgt : String)
    (T R : Int) (ts : TargetState) (r : ProbeResult) (f c : Int)
    (hst : ts.analyzer = some ⟨true, f, c⟩) (hr : r.up = false) (hlt : f + 1 < T) :
    Process maxPts now id name tgt T R ts r
      = ({ recordStep maxPts now r ts with analyzer := some ⟨true, f + 1, c⟩ },
         [], ⟨true⟩) := by
  simp only [Process, ensureState, hst, Option.getD_some, hr, Bool.false_eq_true, if_false]
  rw [if_neg (by simp; omega), if_neg (by simp)]

/-- Failed probe while UP, reaching the threshold: UP→DOWN transition,
open incident, one `down` alert. -/
theorem Process_fail_transition (maxPts : Nat) (now : Int) (id name tgt : String)
    (T R : Int) (ts : TargetState) (r : ProbeResult) (f c : Int)
    (hst : ts.analyzer = some ⟨true, f, c⟩) (hr : r.up = false) (hge : T ≤ f + 1) :
    Process maxPts now id name tgt T R ts r
      = (RecordDown now r.error
          { recordStep maxPts now r ts with analyzer := some ⟨false, f + 1, 0⟩ },
         [{ monitorID := id, monitorName := name, typ := "down", target := tgt
            reason := r.error, timestamp := now }],
         ⟨true⟩) := by
  simp only [Process, ensureState, hst, Option.getD_some, hr, Bool.false_eq_true, if_false]
  rw [if_pos (by simp; omega)]

/-- Failed probe while DOWN with no (or zero) reminder cadence: only the
failure counter moves, no event. -/
theorem Process_fail_down_noReminder (maxPts : Nat) (now : Int) (id name tgt : String)
    (T R : Int) (ts : TargetState) (r : ProbeResult) (f c : Int)
    (hst : ts.analyzer = some ⟨false, f, c⟩) (hr : r.up = false) (hR : R ≤ 0) :
    Process maxPts now id name tgt T R ts r
      = ({ recordStep maxPts now r ts with analyzer := some ⟨false, f + 1, c⟩ },
         [], ⟨true⟩) := by
  simp only [Process, ensureState, hst, Option.getD_some, hr, Bool.false_eq_true, if_false]
  rw [if_neg (by simp), if_neg (by simp; omega)]

/-- Failed probe while DOWN, reminder cadence not yet reached: the reminder
counter moves, no event. -/
theorem Process_fail_down_belowReminder (maxPts : Nat) (now : Int) (id name tgt : String)
    (T R : Int) (ts : TargetState) (r : ProbeResult) (f c : Int)
    (hst : ts.analyzer = some ⟨false, f, c⟩) (hr : r.up = false)
    (hR : 0 < R) (hc : c + 1 < R) :
    Process maxPts now id name tgt T R ts r
      = ({ recordStep maxPts now r ts with analyzer := some ⟨false, f + 1, c + 1⟩ },
         [], ⟨true⟩) := by
  simp only [Process, ensureState, hst, Option.getD_some, hr, Bool.false_eq_true, if_false]
  rw [if_neg (by simp), if_pos (by simp; omega), if_neg (by omega)]

/-- Failed probe while DOWN, reminder cadence reached: reminder counter
resets and another `down` alert fires; incidents untouched. -/
theorem Process_fail_down_reminder (maxPts : Nat) (now : Int) (id name tgt : String)
    (T R : Int) (ts : TargetState) (r : ProbeResult) (f c : Int)
    (hst : ts.analyzer = some ⟨false, f, c⟩) (hr : r.up = false)
    (hR : 0 < R) (hc : R ≤ c + 1) :
    Process maxPts now id name tgt T R ts r
      = ({ recordStep maxPts now r ts with analyzer := some ⟨false, f + 1, 0⟩ },
         [{ monitorID := id, monitorName := name, typ := "down", target := tgt
            reason := r.error, timestamp := now }],
         ⟨true⟩) := by
  simp only [Process, ensureState, hst, Option.getD_some, hr, Bool.false_eq_true, if_false]
  rw [if_neg (by simp), if_pos (by simp; omega), if_pos (by omega)]

/-- Successful probe while DOWN: recovery — counters reset, state UP, the
latest open incident resolved, one `up` alert. -/
theorem Process_success_down (maxPts : Nat) (now : Int) (id name tgt : String)
    (T R : Int) (ts : TargetState) (r : ProbeResult) (f c : Int)
    (hst : ts.analyzer = some ⟨false, f, c⟩) (hr : r.up = true) :
    Process maxPts now id name tgt T R ts r
      = (RecordUp now
          { recordStep maxPts now r ts with analyzer := some ⟨true, 0, 0⟩ },
         [{ monitorID := id, monitorName := name, typ := "up", target := tgt
            reason := "", timestamp := now }],
         ⟨false⟩) := by
  simp only [Process, ensureState, hst, Option.getD_some, hr, if_true]
  rfl

/-- Successful probe while UP: counters reset, no event. -/
theorem Process_success_up (maxPts : Nat) (now : Int) (id name tgt : String)
    (T R : Int) (ts : TargetState) (r : ProbeResult) (f c : Int)
    (hst : ts.analyzer = some ⟨true, f, c⟩) (hr : r.up = true) :
    Process maxPts now id name tgt T R ts r
      = ({ recordStep maxPts now r ts with analyzer := some ⟨true, 0, 0⟩ },
         [], ⟨false⟩) := by
  simp only [Process, ensureState, hst, Option.getD_some, hr, if_true]
  rfl

/-! ### Trace lemmas for consecutive failures -/

/-- Consecutive failures that stay strictly below the threshold: the state
stays UP, the failure counter adds up, and no event is emitted. -/
theorem runOps_fail_below (maxPts : Nat) (id name tgt : String) (T R : Int)
    (L : List (Int × ProbeResult)) :
    ∀ (ts : TargetState) (f c : Int),
      ts.analyzer = some ⟨true, f, c⟩ →
      (∀ p ∈ L, p.2.up = false) →
      f + L.length < T →
      (runOps maxPts id name tgt ts (probeTrace T R L)).2 = []
      ∧ (runOps maxPts id name tgt ts (probeTrace T R L)).1.analyzer
          = some ⟨true, f + L.length, c⟩ := by
  induction L with
  | nil =>
    intro ts f c hst _ _
    simpa [probeTrace, runOps] using hst
  | cons p rest ih =>
    intro ts f c hst hfail hlt
    have hpu : p.2.up = false := hfail p (by simp)
    have hstep := Process_fail_below maxPts p.1 id name tgt T R ts p.2 f c hst hpu
      (by simp at hlt; omega)
    have hnext := ih { recordStep maxPts p.1 p.2 ts with analyzer := some ⟨true, f + 1, c⟩ }
      (f + 1) c rfl (fun q hq => hfail q (by simp [hq]))
      (by simp at hlt ⊢; omega)
    simp only [probeTrace, List.map_cons] at hnext ⊢
    simp only [runOps, applyOp, hstep]
    refine ⟨by simpa using hnext.1, ?_⟩
    rw [hnext.2]
    simp
    omega

/-- Consecutive failures that reach the threshold exactly at the last probe:
exactly one event is emitted, it is a `down` event, and the state ends DOWN. -/
theorem runOps_fail_hit (maxPts : Nat) (id name tgt : String) (T R : Int)
    (L : List (Int × ProbeResult)) :
    ∀ (ts : TargetState) (f c : Int),
      ts.analyzer = some ⟨true, f, c⟩ →
      (∀ p ∈ L, p.2.up = false) →
      f + L.length = T → L ≠ [] →
      (runOps maxPts id name tgt ts (probeTrace T R L)).2.length = 1
      ∧ (∀ e ∈ (runOps maxPts id name tgt ts (probeTrace T R L)).2, e.typ = "down")
      ∧ (runOps maxPts id name tgt ts (probeTrace T R L)).1.analyzer
          = some ⟨false, T, 0⟩ := by
  induction L with
  | nil => intro ts f c _ _ _ hne; exact absurd rfl hne
  | cons p rest ih =>
    intro ts f c hst hfail hlen _
    have hpu : p.2.up = false := hfail p (by simp)
    rcases eq_or_ne rest [] with hrest | hrest
    · subst hrest
      have hge : T ≤ f + 1 := by simp at hlen; omega
      have hstep := Process_fail_transition maxPts p.1 id name tgt T R ts p.2 f c hst hpu hge
      simp only [probeTrace, List.map_cons, List.map_nil, runOps, applyOp, hstep]
      refine ⟨rfl, by simp, ?_⟩
      have : f + 1 = T := by simp at hlen; omega
      simp [RecordDown, this]
    · have hlt : f + 1 < T := by
        have : 1 ≤ rest.length := by
          cases rest with
          | nil => exact absurd rfl hrest
          | cons _ _ => simp
        simp at hlen; omega
      have hstep := Process_fail_below maxPts p.1 id name tgt T R ts p.2 f c hst hpu hlt
      have hnext := ih { recordStep maxPts p.1 p.2 ts with analyzer := some ⟨true, f + 1, c⟩ }
        (f + 1) c rfl (fun q hq => hfail q (by simp [hq]))
        (by simp at hlen ⊢; omega) hrest
      simp only [probeTrace, List.map_cons] at hnext ⊢
      simp only [runOps, applyOp, hstep]
      exact ⟨by simpa using hnext.1, by simpa using hnext.2.1, hnext.2.2⟩

/-- C1: starting UP with failure counter 0 and configured threshold `T ≥ 1`,
a run of consecutive failed probes emits nothing and keeps the state UP
through the first `T-1` failures; the `T`-th failure flips the state to DOWN
and emits exactly one `down` alert event. -/
theorem C1_threshold_hysteresis (maxPts : Nat) (id name tgt : String)
    (T : Nat) (R c : Int) (h0 : Option MonitorHistory) (i0 : Option (List Incident))
    (L : List (Int × ProbeResult))
    (hT : 1 ≤ T) (hfail : ∀ p ∈ L, p.2.up = false) (hlen : L.length = T) :
    (∀ k < T,
      (runOps maxPts id name tgt ⟨some ⟨true, 0, c⟩, h0, i0⟩
          (probeTrace (T : Int) R (L.take k))).2 = []
      ∧ (runOps maxPts id name tgt ⟨some ⟨true, 0, c⟩, h0, i0⟩
          (probeTrace (T : Int) R (L.take k))).1.analyzer = some ⟨true, (k : Int), c⟩)
    ∧ (runOps maxPts id name tgt ⟨some ⟨true, 0, c⟩, h0, i0⟩
        (probeTrace (T : Int) R L)).2.length = 1
    ∧ (∀ e ∈ (runOps maxPts id name tgt ⟨some ⟨true, 0, c⟩, h0, i0⟩
        (probeTrace (T : Int) R L)).2, e.typ = "down")
    ∧ (runOps maxPts id name tgt ⟨some ⟨true, 0, c⟩, h0, i0⟩
        (probeTrace (T : Int) R L)).1.analyzer = some ⟨false, (T : Int), 0⟩ := by
  constructor
  · intro k hk
    have hkle : k ≤ L.length := by omega
    have := runOps_fail_below maxPts id name tgt (T : Int) R (L.take k)
      ⟨some ⟨true, 0, c⟩, h0, i0⟩ 0 c rfl
      (fun p hp => hfail p (List.mem_of_mem_take hp))
      (by rw [List.length_take, Nat.min_eq_left hkle]; omega)
    rw [List.length_take, Nat.min_eq_left hkle] at this
    simpa using this
  · have := runOps_fail_hit maxPts id name tgt (T : Int) R L
      ⟨some ⟨true, 0, c⟩, h0, i0⟩ 0 c rfl hfail
      (by rw [hlen]; omega) (by intro h; rw [h] at hlen; simp at hlen; omega)
    exact this

/-! ### Resolution of the latest open incident -/

/-- `resolveFirstOpen` resolves exactly the first open incident of the list:
the prefix before it (all resolved) and the suffix after it are untouched. -/
theorem resolveFirstOpen_eq (now : Int) (l : List Incident)
    (h : ∃ i ∈ l, i.resolvedAt = none) :
    ∃ a i b, l = a ++ i :: b ∧ (∀ x ∈ a, x.resolvedAt ≠ none) ∧ i.resolvedAt = none
      ∧ resolveFirstOpen now l
          = a ++ { i with resolvedAt := some now, duration := now - i.startedAt } :: b := by
  induction l with
  | nil => simp at h
  | cons x rest ih =>
    by_cases hx : x.resolvedAt = none
    · exact ⟨[], x, rest, by simp, by simp, hx, by simp [resolveFirstOpen, hx]⟩
    · obtain ⟨i, hi, hio⟩ := h
      have hir : i ∈ rest := by
        rcases List.mem_cons.mp hi with rfl | h'
        · exact absurd hio hx
        · exact h'
      obtain ⟨a, i', b, hsplit, ha, hio', heq⟩ := ih ⟨i, hir, hio⟩
      exact ⟨x :: a, i', b, by simp [hsplit], by
        intro y hy
        rcases List.mem_cons.mp hy with rfl | h'
        · exact hx
        · exact ha y h', hio',
        by simp [resolveFirstOpen, hx, heq]⟩

/-- `HistoryManager.RecordUp`'s incident effect resolves exactly the most
recently opened unresolved incident: the unresolved incident with no
unresolved incident after it in the list. -/
theorem recordUpIncidents_eq (now : Int) (incs : List Incident)
    (h : ∃ i ∈ incs, i.resolvedAt = none) :
    ∃ pre i post, incs = pre ++ i :: post ∧ i.resolvedAt = none
      ∧ (∀ x ∈ post, x.resolvedAt ≠ none)
      ∧ recordUpIncidents now incs
          = pre ++ { i with resolvedAt := some now, duration := now - i.startedAt } :: post := by
  obtain ⟨i, hi, hio⟩ := h
  obtain ⟨a, i', b, hsplit, ha, hio', heq⟩ :=
    resolveFirstOpen_eq now incs.reverse ⟨i, List.mem_reverse.mpr hi, hio⟩
  refine ⟨b.reverse, i', a.reverse, ?_, hio', ?_, ?_⟩
  · have := congrArg List.reverse hsplit
    simpa using this
  · intro x hx
    exact ha x (List.mem_reverse.mp hx)
  · unfold recordUpIncidents
    rw [heq]
    simp

/-- C2: from DOWN with an open incident, one successful probe result flips
the state to UP, resets both counters, emits exactly one `up` alert event,
and resolves exactly the most recently opened unresolved incident, setting
its resolution time to `now` and its duration to `now - startedAt`. -/
theorem C2_recovery (maxPts : Nat) (now : Int) (id name tgt : String)
    (T R : Int) (ts : TargetState) (r : ProbeResult) (f c : Int)
    (incs : List Incident)
    (hst : ts.analyzer = some ⟨false, f, c⟩)
    (hincs : ts.incidents = some incs)
    (hopen : ∃ i ∈ incs, i.resolvedAt = none)
    (hr : r.up = true) :
    (Process maxPts now id name tgt T R ts r).2.2 = ⟨false⟩
    ∧ (Process maxPts now id name tgt T R ts r).2.1
        = [{ monitorID := id, monitorName := name, typ := "up", target := tgt
             reason := "", timestamp := now }]
    ∧ (Process maxPts now id name tgt T R ts r).1.analyzer = some ⟨true, 0, 0⟩
    ∧ (∃ h, (Process maxPts now id name tgt T R ts r).1.history = some h ∧ h.isUp = true)
    ∧ (∃ pre i post, incs = pre ++ i :: post ∧ i.resolvedAt = none
        ∧ (∀ x ∈ post, x.resolvedAt ≠ none)
        ∧ (Process maxPts now id name tgt T R ts r).1.incidents
            = some (pre ++
                { i with resolvedAt := some now, duration := now - i.startedAt }
                :: post)) := by
  rw [Process_success_down maxPts now id name tgt T R ts r f c hst hr]
  obtain ⟨pre, i, post, hsplit, hio, hpost, heq⟩ := recordUpIncidents_eq now incs hopen
  refine ⟨rfl, rfl, rfl, ⟨_, rfl, rfl⟩, pre, i, post, hsplit, hio, hpost, ?_⟩
  simp [RecordUp, recordStep, hincs, heq]

/-! ### Reminder cadence while DOWN -/

/-- Consecutive failures while DOWN with a positive reminder cadence `R`,
starting from reminder counter `c` with `0 ≤ c < R`: the state stays DOWN,
the reminder counter ends at `(c + len) % R`, exactly `(c + len) / R` events
are emitted, all of them `down` reminders, and the incident list is untouched. -/
theorem runOps_fail_down_posR (maxPts : Nat) (id name tgt : String) (T R : Int)
    (hR : 0 < R) (L : List (Int × ProbeResult)) :
    ∀ (ts : TargetState) (f c : Int),
      ts.analyzer = some ⟨false, f, c⟩ →
      (∀ p ∈ L, p.2.up = false) →
      0 ≤ c → c < R →
      ((runOps maxPts id name tgt ts (probeTrace T R L)).2.length : Int)
          = (c + L.length) / R
      ∧ (∀ e ∈ (runOps maxPts id name tgt ts (probeTrace T R L)).2, e.typ = "down")
      ∧ (runOps maxPts id name tgt ts (probeTrace T R L)).1.analyzer
          = some ⟨false, f + L.length, (c + L.length) % R⟩
      ∧ (runOps maxPts id name tgt ts (probeTrace T R L)).1.incidents.getD []
          = ts.incidents.getD [] := by
  induction L with
  | nil =>
    intro ts f c hst _ hc0 hcR
    refine ⟨?_, by simp [probeTrace, runOps], ?_, by simp [probeTrace, runOps]⟩
    · simp only [probeTrace, List.map_nil, runOps, List.length_nil, Nat.cast_zero,
        add_zero]
      exact (Int.ediv_eq_zero_of_lt hc0 hcR).symm
    · simp only [probeTrace, List.map_nil, runOps, hst, List.length_nil, Nat.cast_zero,
        add_zero, Int.emod_eq_of_lt hc0 hcR]
  | cons p rest ih =>
    intro ts f c hst hfail hc0 hcR
    have hpu : p.2.up = false := hfail p (by simp)
    by_cases hhit : R ≤ c + 1
    · -- reminder fires at this step, counter resets to 0
      have hstep := Process_fail_down_reminder maxPts p.1 id name tgt T R ts p.2 f c
        hst hpu hR hhit
      have hnext := ih { recordStep maxPts p.1 p.2 ts with analyzer := some ⟨false, f + 1, 0⟩ }
        (f + 1) 0 rfl (fun q hq => hfail q (by simp [hq])) le_rfl hR
      simp only [zero_add] at hnext
      simp only [probeTrace, List.map_cons] at hnext ⊢
      simp only [runOps, applyOp, hstep]
      have hsplit : (c : Int) + ((rest.length : Int) + 1) = (rest.length : Int) + 1 * R := by
        omega
      refine ⟨?_, ?_, ?_, ?_⟩
      · simp only [List.singleton_append, List.length_cons]
        push_cast
        rw [hnext.1, hsplit, Int.add_mul_ediv_right _ _ (ne_of_gt hR)]
      · intro e he
        simp only [List.singleton_append, List.mem_cons] at he
        rcases he with rfl | he
        · rfl
        · exact hnext.2.1 e he
      · rw [hnext.2.2.1]
        simp only [Option.some.injEq, MonitorState.mk.injEq, List.length_cons]
        refine ⟨trivial, by push_cast; omega, ?_⟩
        push_cast
        rw [hsplit, Int.add_mul_emod_self]
      · rw [hnext.2.2.2]
        simp [recordStep]
    · -- below cadence: counter advances, no event
      have hstep := Process_fail_down_belowReminder maxPts p.1 id name tgt T R ts p.2 f c
        hst hpu hR (by omega)
      have hnext := ih { recordStep maxPts p.1 p.2 ts with analyzer := some ⟨false, f + 1, c + 1⟩ }
        (f + 1) (c + 1) rfl (fun q hq => hfail q (by simp [hq])) (by omega) (by omega)
      simp only [probeTrace, List.map_cons] at hnext ⊢
      simp only [runOps, applyOp, hstep]
      have hadd : (c : Int) + 1 + (rest.length : Int) = c + ((rest.length : Int) + 1) := by
        omega
      refine ⟨?_, ?_, ?_, ?_⟩
      · simp only [List.nil_append, List.length_cons]
        push_cast
        rw [hnext.1, hadd]
      · intro e he
        simp only [List.nil_append] at he
        exact hnext.2.1 e he
      · rw [hnext.2.2.1]
        simp only [Option.some.injEq, MonitorState.mk.injEq, List.length_cons]
        refine ⟨trivial, by push_cast; omega, ?_⟩
        push_cast
        rw [hadd]
      · rw [hnext.2.2.2]
        simp [recordStep]

/-- Consecutive failures while DOWN with reminder cadence `R ≤ 0` (in
particular `R = 0`): no event is ever emitted, the reminder counter and the
incident list are untouched. -/
theorem runOps_fail_down_nonposR (maxPts : Nat) (id name tgt : String) (T R : Int)
    (hR : R ≤ 0) (L : List (Int × ProbeResult)) :
    ∀ (ts : TargetState) (f c : Int),
      ts.analyzer = some ⟨false, f, c⟩ →
      (∀ p ∈ L, p.2.up = false) →
      (runOps maxPts id name tgt ts (probeTrace T R L)).2 = []
      ∧ (runOps maxPts id name tgt ts (probeTrace T R L)).1.analyzer
          = some ⟨false, f + L.length, c⟩
      ∧ (runOps maxPts id name tgt ts (probeTrace T R L)).1.incidents.getD []
          = ts.incidents.getD [] := by
  induction L with
  | nil =>
    intro ts f c hst _
    refine ⟨by simp [probeTrace, runOps], ?_, by simp [probeTrace, runOps]⟩
    simpa [probeTrace, runOps] using hst
  | cons p rest ih =>
    intro ts f c hst hfail
    have hpu : p.2.up = false := hfail p (by simp)
    have hstep := Process_fail_down_noReminder maxPts p.1 id name tgt T R ts p.2 f c
      hst hpu hR
    have hnext := ih { recordStep maxPts p.1 p.2 ts with analyzer := some ⟨false, f + 1, c⟩ }
      (f + 1) c rfl (fun q hq => hfail q (by simp [hq]))
    simp only [probeTrace, List.map_cons] at hnext ⊢
    simp only [runOps, applyOp, hstep]
    refine ⟨by simpa using hnext.1, ?_, ?_⟩
    · rw [hnext.2.1]
      simp only [Option.some.injEq, MonitorState.mk.injEq, List.length_cons]
      refine ⟨trivial, by push_cast; omega, trivial⟩
    · rw [hnext.2.2]
      simp [recordStep]

/-- C3: while DOWN with reminder counter 0 and configured cadence `R`:
over any run of consecutive failed probes the state stays DOWN and the
incident list is unchanged; if `R > 0`, after any prefix of `k` failed
probes exactly `k / R` reminder `down` events have fired (so one fires
exactly on every `R`-th failed probe, the counter resetting each time,
and the counter ends at `k % R`); if `R = 0`, no event is ever emitted. -/
theorem C3_reminder_cadence (maxPts : Nat) (id name tgt : String) (T R : Int)
    (ts : TargetState) (f : Int) (l : List Incident)
    (L : List (Int × ProbeResult))
    (hst : ts.analyzer = some ⟨false, f, 0⟩)
    (hincs : ts.incidents = some l)
    (hfail : ∀ p ∈ L, p.2.up = false) :
    (0 < R →
      (∀ k ≤ L.length,
        ((runOps maxPts id name tgt ts (probeTrace T R (L.take k))).2.length : Int)
            = (k : Int) / R
        ∧ (∀ e ∈ (runOps maxPts id name tgt ts (probeTrace T R (L.take k))).2,
            e.typ = "down")
        ∧ (runOps maxPts id name tgt ts (probeTrace T R (L.take k))).1.analyzer
            = some ⟨false, f + k, (k : Int) % R⟩
        ∧ (runOps maxPts id name tgt ts (probeTrace T R (L.take k))).1.incidents.getD []
            = l))
    ∧ (R = 0 →
      ((runOps maxPts id name tgt ts (probeTrace T R L)).2 = []
        ∧ (runOps maxPts id name tgt ts (probeTrace T R L)).1.incidents.getD [] = l)) := by
  constructor
  · intro hR k hk
    have := runOps_fail_down_posR maxPts id name tgt T R hR (L.take k) ts f 0 hst
      (fun p hp => hfail p (List.mem_of_mem_take hp)) le_rfl hR
    rw [List.length_take, Nat.min_eq_left hk] at this
    simp only [Int.zero_add, zero_add] at this
    refine ⟨this.1, this.2.1, this.2.2.1, by rw [this.2.2.2, hincs]; rfl⟩
  · intro hR
    have := runOps_fail_down_nonposR maxPts id name tgt T R (by omega) L ts f 0 hst hfail
    exact ⟨this.1, by rw [this.2.2, hincs]; rfl⟩

/-! ### Latency ring buffer -/

/-- A sequence of `RecordProbe` calls for one target: each entry is
`(now, latencyMs, up)`.  The store starts with `none` (no entry for the id)
and each call wraps its result back into the map. -/
def runRecordProbe (maxPts : Nat) (h : Option MonitorHistory) :
    List (Int × Int × Bool) → Option MonitorHistory
  | [] => h
  | q :: rest => runRecordProbe maxPts (some (RecordProbe maxPts q.1 q.2.1 q.2.2 h)) rest

/-- The latency point `RecordProbe` appends for the call `(now, lat, up)`. -/
def probePoint (q : Int × Int × Bool) : LatencyPoint :=
  { time := q.1, latency := q.2.1, up := q.2.2 }

theorem RecordProbe_latencyHistory (maxPts : Nat) (now lat : Int) (up : Bool)
    (h : Option MonitorHistory) :
    (RecordProbe maxPts now lat up h).latencyHistory =
      (if maxPts < ((ensureMonitor h).latencyHistory ++ [probePoint (now, lat, up)]).length
       then ((ensureMonitor h).latencyHistory ++ [probePoint (now, lat, up)]).drop
              (((ensureMonitor h).latencyHistory ++ [probePoint (now, lat, up)]).length - maxPts)
       else (ensureMonitor h).latencyHistory ++ [probePoint (now, lat, up)]) := by
  simp only [RecordProbe, recalcUptime, probePoint]

/-- Invariant of the trimming in `RecordProbe`: starting from a latency list
not longer than the cap, after any further call sequence the list is exactly
`min` of the total appended length and the cap, and is a suffix of the full
append sequence (oldest-first eviction, order preserved). -/
theorem runRecordProbe_latency_inv (maxPts : Nat)
    (inputs : List (Int × Int × Bool)) :
    ∀ (h : Option MonitorHistory),
      (ensureMonitor h).latencyHistory.length ≤ maxPts →
      (ensureMonitor (runRecordProbe maxPts h inputs)).latencyHistory.length
          = min ((ensureMonitor h).latencyHistory.length + inputs.length) maxPts
      ∧ (ensureMonitor (runRecordProbe maxPts h inputs)).latencyHistory.IsSuffix
          ((ensureMonitor h).latencyHistory ++ inputs.map probePoint) := by
  induction inputs with
  | nil =>
    intro h hlen
    constructor
    · show (ensureMonitor h).latencyHistory.length
          = min ((ensureMonitor h).latencyHistory.length + ([] : List (Int × Int × Bool)).length) maxPts
      simp only [List.length_nil, Nat.add_zero]
      omega
    · show (ensureMonitor h).latencyHistory <:+
          (ensureMonitor h).latencyHistory ++ ([] : List (Int × Int × Bool)).map probePoint
      simp
  | cons q rest ih =>
    intro h hlen
    have hrec := RecordProbe_latencyHistory maxPts q.1 q.2.1 q.2.2 h
    have hnext := ih (some (RecordProbe maxPts q.1 q.2.1 q.2.2 h)) (by
      simp only [ensureMonitor, Option.getD_some, hrec]
      split
      · rename_i hcond
        simp only [List.length_append, List.length_singleton] at hcond
        simp only [List.length_drop, List.length_append, List.length_singleton]
        omega
      · rename_i hcond
        simp only [List.length_append, List.length_singleton] at hcond
        simp only [List.length_append, List.length_singleton]
        omega)
    have hlen1 :
        (ensureMonitor (some (RecordProbe maxPts q.1 q.2.1 q.2.2 h))).latencyHistory.length
          = min ((ensureMonitor h).latencyHistory.length + 1) maxPts := by
      simp only [ensureMonitor, Option.getD_some, hrec]
      split
      · rename_i hcond
        simp only [List.length_append, List.length_singleton] at hcond
        simp only [List.length_drop, List.length_append, List.length_singleton]
        omega
      · rename_i hcond
        simp only [List.length_append, List.length_singleton] at hcond
        simp only [List.length_append, List.length_singleton]
        omega
    have hsfx1 :
        (ensureMonitor (some (RecordProbe maxPts q.1 q.2.1 q.2.2 h))).latencyHistory.IsSuffix
          ((ensureMonitor h).latencyHistory ++ [probePoint q]) := by
      simp only [ensureMonitor, Option.getD_some, hrec]
      split
      · exact List.drop_suffix _ _
      · exact List.suffix_refl _
    refine ⟨?_, ?_⟩
    · rw [show runRecordProbe maxPts h (q :: rest)
            = runRecordProbe maxPts (some (RecordProbe maxPts q.1 q.2.1 q.2.2 h)) rest
          from rfl, hnext.1, hlen1]
      simp only [List.length_cons]
      omega
    · rw [show runRecordProbe maxPts h (q :: rest)
            = runRecordProbe maxPts (some (RecordProbe maxPts q.1 q.2.1 q.2.2 h)) rest
          from rfl]
      refine hnext.2.trans ?_
      obtain ⟨u, hu⟩ := hsfx1
      exact ⟨u, by rw [← List.append_assoc, hu, List.append_assoc]; simp⟩

/-- C6: over any sequence of `RecordProbe` calls for a target (starting with
no stored history), at every intermediate point the stored latency sequence
has length `min(number of calls so far, maxHistoryPts)` — in particular it
never exceeds the configured maximum — and it is a suffix of the sequence of
all appended points: trimming drops exactly the oldest points and preserves
the order of the rest. -/
theorem C6_ring_buffer (maxPts : Nat) (inputs : List (Int × Int × Bool)) (k : Nat) :
    (ensureMonitor (runRecordProbe maxPts none (inputs.take k))).latencyHistory.length
        = min (inputs.take k).length maxPts
    ∧ (ensureMonitor (runRecordProbe maxPts none (inputs.take k))).latencyHistory.length
        ≤ maxPts
    ∧ (ensureMonitor (runRecordProbe maxPts none (inputs.take k))).latencyHistory.IsSuffix
        ((inputs.take k).map probePoint) := by
  have := runRecordProbe_latency_inv maxPts (inputs.take k) none
    (by simp [ensureMonitor, freshMonitorHistory])
  have h0 : (ensureMonitor (none : Option MonitorHistory)).latencyHistory = [] := rfl
  rw [h0] at this
  simp only [List.length_nil, Nat.zero_add, List.nil_append] at this
  exact ⟨this.1, by rw [this.1]; omega, this.2⟩

/-! ### Incident persistence: `HistoryManager.Dump` and `loadIncidents` -/

/-- `storage.IncidentsData`: root structure persisted in `incidents.json`.
The Go `map[string][]Incident` is modelled as an association list with
distinct keys. -/
structure IncidentsData where
  version : Int
  lastDumpTime : Int
  monitors : List (String × List Incident)
  deriving DecidableEq, Repr

/-- The keep condition of the incident-eviction loop in
`HistoryManager.Dump`: keep if started within the retention window OR still
unresolved (`inc.StartedAt >= cutoff || inc.ResolvedAt == nil`). -/
def keepAtDump (cutoff : Int) (inc : Incident) : Bool :=
  decide (cutoff ≤ inc.startedAt) || decide (inc.resolvedAt = none)

/-- The incident list `Dump` writes for one target. -/
def dumpIncidentsFor (now : Int) (incs : List Incident) : List Incident :=
  incs.filter (keepAtDump (now - incidentRetentionSec))

/-- The `Monitors` map of the written `incidents.json`: per-target eviction,
and targets whose kept list is empty are omitted (`if len(kept) > 0`). -/
def dumpIncidentsMap (now : Int) (m : List (String × List Incident)) :
    List (String × List Incident) :=
  (m.map (fun kv => (kv.1, dumpIncidentsFor now kv.2))).filter
    (fun kv => !kv.2.isEmpty)

/-- The `IncidentsData` document `HistoryManager.Dump` writes atomically. -/
def DumpIncidents (now : Int) (m : List (String × List Incident)) : IncidentsData :=
  { version := 1, lastDumpTime := now, monitors := dumpIncidentsMap now m }

/-- `HistoryManager.loadIncidents`: reading the written document back yields
its `Monitors` map (the JSON round trip is the identity on the document). -/
def loadIncidents (d : IncidentsData) : List (String × List Incident) :=
  d.monitors

/-- In an association list with distinct keys, a key determines its value. -/
theorem assoc_nodup_value_eq {α : Type} (m : List (String × α))
    (hn : (m.map Prod.fst).Nodup) {k : String} {v1 v2 : α}
    (h1 : (k, v1) ∈ m) (h2 : (k, v2) ∈ m) : v1 = v2 := by
  induction m with
  | nil => simp at h1
  | cons kv rest ih =>
    simp only [List.map_cons, List.nodup_cons] at hn
    rcases List.mem_cons.mp h1 with rfl | h1'
    · rcases List.mem_cons.mp h2 with h2h | h2'
      · exact (congrArg Prod.snd h2h).symm
      · exact absurd (List.mem_map.mpr ⟨_, h2', rfl⟩) hn.1
    · rcases List.mem_cons.mp h2 with rfl | h2'
      · exact absurd (List.mem_map.mpr ⟨_, h1', rfl⟩) hn.1
      · exact ih hn.2 h1' h2'

/-- C4: an incident that is resolved and started more than 30 days before
the dump time is absent from the incident file written by `Dump` (hence
absent after dump + reload); an unresolved incident is present in the
written file whatever its age. -/
theorem C4_incident_eviction (now : Int) (m : List (String × List Incident))
    (id : String) (incs : List Incident) (inc : Incident)
    (hmem : (id, incs) ∈ m) (hinc : inc ∈ incs) :
    ((m.map Prod.fst).Nodup → inc.resolvedAt ≠ none →
      inc.startedAt < now - incidentRetentionSec →
      ¬ ∃ l, (id, l) ∈ loadIncidents (DumpIncidents now m) ∧ inc ∈ l)
    ∧ (inc.resolvedAt = none →
      ∃ l, (id, l) ∈ loadIncidents (DumpIncidents now m) ∧ inc ∈ l) := by
  constructor
  · rintro hnodup hres hold ⟨l, hl, hincl⟩
    simp only [loadIncidents, DumpIncidents, dumpIncidentsMap, List.mem_filter,
      List.mem_map] at hl
    obtain ⟨⟨⟨k, v⟩, hkv, hkveq⟩, _⟩ := hl
    have hk : k = id := congrArg Prod.fst hkveq
    have hlv : l = dumpIncidentsFor now v := (congrArg Prod.snd hkveq).symm
    subst hk
    have hveq : v = incs := assoc_nodup_value_eq m hnodup hkv hmem
    subst hveq hlv
    have := (List.mem_filter.mp hincl).2
    simp only [keepAtDump, Bool.or_eq_true, decide_eq_true_eq] at this
    rcases this with h | h
    · omega
    · exact hres h
  · intro hres
    have hkeep : keepAtDump (now - incidentRetentionSec) inc = true := by
      simp [keepAtDump, hres]
    have hmemd : inc ∈ dumpIncidentsFor now incs :=
      List.mem_filter.mpr ⟨hinc, hkeep⟩
    refine ⟨dumpIncidentsFor now incs, ?_, hmemd⟩
    simp only [loadIncidents, DumpIncidents, dumpIncidentsMap, List.mem_filter,
      List.mem_map]
    refine ⟨⟨(id, incs), hmem, rfl⟩, ?_⟩
    cases hd : dumpIncidentsFor now incs with
    | nil => rw [hd] at hmemd; simp at hmemd
    | cons a l => simp [hd]

/-! ### Uptime percentage -/

/-- C5 (amended): the uptime percentage `calcUptimeWindow` computes is
exactly 100 when no point falls within the window, and otherwise exactly the
rational `100·k/n` where `n` counts the points within the window and `k`
the up points among them — with no rounding.  (The 2-decimal rounding the
original claim describes happens only in the web layer, `roundUptime`.) -/
theorem C5_uptime_exact (points : List LatencyPoint) (now windowSec : Int) :
    calcUptimeWindow points now windowSec
      = if (points.filter (fun p => now - windowSec ≤ p.time)).length = 0 then 100
        else 100 * (((points.filter (fun p => now - windowSec ≤ p.time)).filter
                (fun p => p.up)).length : ℚ)
             / ((points.filter (fun p => now - windowSec ≤ p.time)).length : ℚ) := by
  have hff : (points.filter (fun p => now - windowSec ≤ p.time)).filter (fun p => p.up)
      = points.filter (fun p => decide (now - windowSec ≤ p.time) && p.up) := by
    rw [List.filter_filter]
    congr 1
    funext a
    exact Bool.and_comm _ _
  rw [calcUptimeWindow, hff]
  split
  · rfl
  · rename_i hne
    have hn : ((points.filter (fun p => now - windowSec ≤ p.time)).length : ℚ) ≠ 0 := by
      exact_mod_cast hne
    field_simp
    ring

/-- C5 (counterexample to the original claim): with three points in the
window of which one is up, the computed uptime is the exact rational
`100/3 = 33.333…`, while `100·1/3` rounded to 2 decimals is `33.33`; the
two differ, so the stored value is not the rounded one. -/
theorem C5_rounding_counterexample :
    calcUptimeWindow
        [{ time := 10, latency := 1, up := true },
         { time := 11, latency := 1, up := false },
         { time := 12, latency := 1, up := false }] 12 100
      = 100 / 3
    ∧ roundUptime (100 * 1 / 3) = 3333 / 100
    ∧ (100 / 3 : ℚ) ≠ 3333 / 100 := by
  refine ⟨?_, ?_, by norm_num⟩
  · rw [calcUptimeWindow]
    norm_num [List.filter]
  · rw [roundUptime]
    have hround : round ((100 * 1 / 3 : ℚ) * 100) = 3333 := by
      rw [round_eq,
        show (100 * 1 / 3 * 100 : ℚ) + 1 / 2 = 20003 / 6 by norm_num,
        Int.floor_eq_iff]
      norm_num
    rw [hround]
    norm_num

/-! ### Open-incident invariant -/

/-- The flapping state the analyzer would use for the target
(`ensureState`: optimistic UP when absent). -/
def stateUp (ts : TargetState) : Bool :=
  (ensureState ts.analyzer).isUp

/-- `Process` reads the analyzer state only through `ensureState` and always
writes a concrete state back, so materialising the default state first does
not change anything. -/
theorem Process_analyzer_ensure (maxPts : Nat) (now : Int) (id name tgt : String)
    (T R : Int) (ts : TargetState) (r : ProbeResult) :
    Process maxPts now id name tgt T R ts r
      = Process maxPts now id name tgt T R
          { ts with analyzer := some (ensureState ts.analyzer) } r := by
  cases ts
  rfl

theorem resolveFirstOpen_open_count (now : Int) (l : List Incident) :
    ((resolveFirstOpen now l).filter Incident.isOpen).length
      = (l.filter Incident.isOpen).length - 1 := by
  induction l with
  | nil => simp [resolveFirstOpen]
  | cons inc rest ih =>
    by_cases hinc : inc.resolvedAt = none
    · simp [resolveFirstOpen, hinc, List.filter, Incident.isOpen]
    · simp only [resolveFirstOpen, hinc, if_false, List.filter_cons]
      by_cases ho : Incident.isOpen inc
      · simp [Incident.isOpen, hinc] at ho
      · simp only [ho, Bool.false_eq_true, if_false]
        exact ih

theorem recordUpIncidents_open_count (now : Int) (l : List Incident) :
    ((recordUpIncidents now l).filter Incident.isOpen).length
      = (l.filter Incident.isOpen).length - 1 := by
  unfold recordUpIncidents
  rw [List.filter_reverse, List.length_reverse, resolveFirstOpen_open_count,
    List.filter_reverse, List.length_reverse]

theorem recordDownIncidents_open_count (now : Int) (reason : String)
    (l : List Incident) :
    ((recordDownIncidents now reason l).filter Incident.isOpen).length
      = (l.filter Incident.isOpen).length + 1 := by
  unfold recordDownIncidents
  simp [List.filter_append, Incident.isOpen]

/-- The coupling invariant between the analyzer state and the incident
store, preserved by probe processing and full target removal. -/
def openInv (ts : TargetState) : Prop :=
  openCount ts ≤ 1 ∧ (stateUp ts = true → openCount ts = 0)

theorem openInv_initial : openInv TargetState.initial := by
  constructor <;> simp [openInv, openCount, TargetState.initial, stateUp, ensureState]

/-- One probe-processing step preserves the coupling invariant. -/
theorem Process_preserves_openInv (maxPts : Nat) (now : Int) (id name tgt : String)
    (T R : Int) (ts : TargetState) (r : ProbeResult) (hinv : openInv ts) :
    openInv (Process maxPts now id name tgt T R ts r).1 := by
  obtain ⟨hle, hup⟩ := hinv
  rw [Process_analyzer_ensure]
  set st := ensureState ts.analyzer with hst
  have hgetd : (ensureState (some st)) = st := rfl
  cases hru : r.up
  · -- failure path
    cases hisup : st.isUp
    · -- already DOWN: incidents unchanged on every sub-branch
      have hcase :
          (Process maxPts now id name tgt T R { ts with analyzer := some st } r).1.incidents
              = some (ts.incidents.getD [])
          ∧ stateUp (Process maxPts now id name tgt T R
              { ts with analyzer := some st } r).1 = false := by
        by_cases hR : 0 < R
        · by_cases hc : R ≤ st.reminderCount + 1
          · rw [Process_fail_down_reminder maxPts now id name tgt T R _ r
              st.failCount st.reminderCount (by simp [← hisup]) hru hR hc]
            exact ⟨rfl, rfl⟩
          · rw [Process_fail_down_belowReminder maxPts now id name tgt T R _ r
              st.failCount st.reminderCount (by simp [← hisup]) hru hR (by omega)]
            exact ⟨rfl, rfl⟩
        · rw [Process_fail_down_noReminder maxPts now id name tgt T R _ r
            st.failCount st.reminderCount (by simp [← hisup]) hru (by omega)]
          exact ⟨rfl, rfl⟩
      constructor
      · show openCount _ ≤ 1
        rw [openCount, hcase.1]
        simpa [openCount] using hle
      · rw [hcase.2]
        intro h
        simp at h
    · -- currently UP
      by_cases hT : T ≤ st.failCount + 1
      · rw [Process_fail_transition maxPts now id name tgt T R _ r
          st.failCount st.reminderCount (by simp [← hisup]) hru hT]
        have h0 : openCount ts = 0 := hup (by simp [stateUp, ← hst, hisup])
        constructor
        · show openCount _ ≤ 1
          simp only [openCount, RecordDown, recordStep, Option.getD_some]
          rw [recordDownIncidents_open_count]
          simp only [openCount] at h0
          simp [h0]
        · intro h
          simp [stateUp, ensureState, RecordDown] at h
      · rw [Process_fail_below maxPts now id name tgt T R _ r
          st.failCount st.reminderCount (by simp [← hisup]) hru (by omega)]
        have h0 : openCount ts = 0 := hup (by simp [stateUp, ← hst, hisup])
        constructor
        · show openCount _ ≤ 1
          simp only [openCount, recordStep, Option.getD_some]
          simp only [openCount] at h0
          simp [h0]
        · intro _
          simp only [openCount, recordStep, Option.getD_some]
          simpa [openCount] using h0
  · -- success path
    cases hisup : st.isUp
    · -- recovery: resolve latest open incident
      rw [Process_success_down maxPts now id name tgt T R _ r
        st.failCount st.reminderCount (by simp [← hisup]) hru]
      constructor
      · show openCount _ ≤ 1
        simp only [openCount, RecordUp, recordStep, Option.getD_some]
        rw [recordUpIncidents_open_count]
        simp only [openCount] at hle
        omega
      · intro _
        simp only [openCount, RecordUp, recordStep, Option.getD_some]
        rw [recordUpIncidents_open_count]
        simp only [openCount] at hle
        omega
    · -- already UP: nothing changes
      rw [Process_success_up maxPts now id name tgt T R _ r
        st.failCount st.reminderCount (by simp [← hisup]) hru]
      have h0 : openCount ts = 0 := hup (by simp [stateUp, ← hst, hisup])
      constructor
      · show openCount _ ≤ 1
        simp only [openCount, recordStep, Option.getD_some]
        simp only [openCount] at h0
        simp [h0]
      · intro _
        simp only [openCount, recordStep, Option.getD_some]
        simpa [openCount] using h0

/-- Any run of probe processing and full removals preserves the invariant. -/
theorem runOps_preserves_openInv (maxPts : Nat) (id name tgt : String)
    (trace : List Op) :
    ∀ ts, (∀ op ∈ trace, op ≠ Op.removeStateOnly) → openInv ts →
      openInv (runOps maxPts id name tgt ts trace).1 := by
  induction trace with
  | nil => intro ts _ hinv; exact hinv
  | cons op rest ih =>
    intro ts hgood hinv
    have hop : op ≠ Op.removeStateOnly := hgood op (by simp)
    have hstep : openInv (applyOp maxPts id name tgt ts op).1 := by
      cases op with
      | probe now T R r =>
        simpa [applyOp] using
          Process_preserves_openInv maxPts now id name tgt T R ts r hinv
      | removeFull =>
        constructor <;>
          simp [applyOp, RemoveMonitor, RemoveState, openCount, stateUp, ensureState]
      | removeStateOnly => exact absurd rfl hop
    have := ih (applyOp maxPts id name tgt ts op).1
      (fun q hq => hgood q (by simp [hq])) hstep
    simpa [runOps] using this

/-- C7 (amended): in every state reachable — from the fresh initial state —
by any sequence of probe processing and *full* target removals (removals
that discard the store's history and incidents together with the analyzer
state, as the web deletion handler does), each target has at most one open
incident.  (Removing only the analyzer state, which is what scheduler
reconciliation does when a target is disabled, breaks the invariant — see
the counterexample.) -/
theorem C7_single_open_invariant (maxPts : Nat) (id name tgt : String)
    (trace : List Op) (hgood : ∀ op ∈ trace, op ≠ Op.removeStateOnly) (k : Nat) :
    openCount (runOps maxPts id name tgt TargetState.initial (trace.take k)).1 ≤ 1 :=
  (runOps_preserves_openInv maxPts id name tgt (trace.take k) TargetState.initial
    (fun op hop => hgood op (List.mem_of_mem_take hop)) openInv_initial).1

/-- C7 witness: a concrete good trace (threshold-1 failure opening an
incident, full removal, threshold-1 failure opening a fresh incident)
keeps at most one open incident. -/
theorem C7_single_open_invariant_witness :
    openCount (runOps 10 "m" "n" "t" TargetState.initial
      ([Op.probe 1 1 0 { up := false, latencyMs := 0, error := "e" },
        Op.removeFull,
        Op.probe 2 1 0 { up := false, latencyMs := 0, error := "e" }].take 3)).1 ≤ 1 :=
  C7_single_open_invariant 10 "m" "n" "t"
    [Op.probe 1 1 0 { up := false, latencyMs := 0, error := "e" },
     Op.removeFull,
     Op.probe 2 1 0 { up := false, latencyMs := 0, error := "e" }]
    (by intro op hop; fin_cases hop <;> simp) 3

/-- C7 counterexample: the claim as stated quantifies over interleavings of
probe processing and scheduler-reconciliation removal, which removes only
the analyzer runtime state (`Analyzer.RemoveState`) and not the stored
incidents.  Failing to DOWN (threshold 1), disabling the target (state-only
removal), re-adding it and failing to DOWN again yields a reachable state
with two open incidents for the target. -/
theorem C7_two_open_incidents :
    openCount (runOps 10 "m" "n" "t" TargetState.initial
      [Op.probe 1 1 0 { up := false, latencyMs := 0, error := "e" },
       Op.removeStateOnly,
       Op.probe 2 1 0 { up := false, latencyMs := 0, error := "e" }]).1 = 2 := by
  rfl

/-! ### Concrete witnesses -/

/-- C1 witness: threshold 2, two consecutive failures emit exactly one event. -/
theorem C1_threshold_hysteresis_witness :
    (runOps 5 "m" "n" "t" ⟨some ⟨true, 0, 0⟩, none, none⟩
        (probeTrace ((2 : Nat) : Int) 0
          [(1, { up := false, latencyMs := 0, error := "x" }),
           (2, { up := false, latencyMs := 0, error := "x" })])).2.length = 1 :=
  (C1_threshold_hysteresis 5 "m" "n" "t" 2 0 0 none none
    [(1, { up := false, latencyMs := 0, error := "x" }),
     (2, { up := false, latencyMs := 0, error := "x" })]
    (by norm_num) (by decide) rfl).2.1

/-- C2 witness: a recovery probe on a DOWN target with one open incident
emits exactly the single `up` event. -/
theorem C2_recovery_witness :
    (Process 5 9 "m" "n" "t" 3 0
        ⟨some ⟨false, 1, 0⟩, none,
         some [{ typ := "down", startedAt := 4, resolvedAt := none
                 duration := 0, reason := "e" }]⟩
        { up := true, latencyMs := 7, error := "" }).2.1
      = [{ monitorID := "m", monitorName := "n", typ := "up", target := "t"
           reason := "", timestamp := 9 }] :=
  (C2_recovery 5 9 "m" "n" "t" 3 0 _ _ 1 0 _ rfl rfl
    ⟨{ typ := "down", startedAt := 4, resolvedAt := none, duration := 0, reason := "e" },
      by simp, rfl⟩ rfl).2.1

/-- C3 witness: cadence 2, four failures while DOWN emit `4 / 2` reminders. -/
theorem C3_reminder_cadence_witness :
    ((runOps 5 "m" "n" "t" ⟨some ⟨false, 1, 0⟩, none, some []⟩
        (probeTrace 9 2
          ([(1, { up := false, latencyMs := 0, error := "e" }),
            (2, { up := false, latencyMs := 0, error := "e" }),
            (3, { up := false, latencyMs := 0, error := "e" }),
            (4, { up := false, latencyMs := 0, error := "e" })].take 4))).2.length : Int)
      = ((4 : Nat) : Int) / 2 :=
  ((C3_reminder_cadence 5 "m" "n" "t" 9 2 _ 1 []
    [(1, { up := false, latencyMs := 0, error := "e" }),
     (2, { up := false, latencyMs := 0, error := "e" }),
     (3, { up := false, latencyMs := 0, error := "e" }),
     (4, { up := false, latencyMs := 0, error := "e" })]
    rfl rfl (by decide)).1 (by norm_num) 4 (by norm_num)).1

/-- C4 witness: an unresolved incident of arbitrary age survives dump+reload. -/
theorem C4_incident_eviction_witness :
    ∃ l, ("m", l) ∈ loadIncidents (DumpIncidents 1000000000
        [("m", [{ typ := "down", startedAt := 0, resolvedAt := none
                  duration := 0, reason := "e" }])])
      ∧ ({ typ := "down", startedAt := 0, resolvedAt := none
           duration := 0, reason := "e" } : Incident) ∈ l :=
  (C4_incident_eviction 1000000000
    [("m", [{ typ := "down", startedAt := 0, resolvedAt := none
              duration := 0, reason := "e" }])]
    "m"
    [{ typ := "down", startedAt := 0, resolvedAt := none, duration := 0, reason := "e" }]
    { typ := "down", startedAt := 0, resolvedAt := none, duration := 0, reason := "e" }
    (by simp) (by simp)).2 rfl

/-! ### Configuration model and validation (`internal/config/model.go`) -/

structure SSOConfig where
  enabled : Bool
  deriving DecidableEq, Repr

structure AuthConfig where
  username : String
  passwordHash : String
  maxLoginAttempts : Int
  lockoutDuration : Int
  sso : SSOConfig
  deriving DecidableEq, Repr

structure SystemConfig where
  bindAddress : String
  checkInterval : Int
  maxHistoryPoints : Int
  dumpInterval : Int
  sessionTTL : Int
  logLevel : String
  maxMonitors : Int
  timezone : String
  deriving DecidableEq, Repr

structure NotifierConfig where
  id : String
  typ : String
  remark : String
  botToken : String
  chatID : String
  url : String
  method : String
  deriving DecidableEq, Repr

structure ContactGroup where
  id : String
  name : String
  notifiers : List NotifierConfig
  deriving DecidableEq, Repr

/-- `config.Monitor`.  `typ` embeds Go's `Type`; `enabled` is the tri-state
`*bool` (`none` = absent = enabled). -/
structure Monitor where
  id : String
  name : String
  typ : String
  target : String
  groupID : String
  interval : Int
  timeout : Int
  maxRetries : Int
  retryInterval : Int
  reminderInterval : Int
  ignoreTLS : Bool
  enabled : Option Bool
  notifierIDs : List String
  deriving DecidableEq, Repr

/-- `config.Config`.  Go maps are modelled as association lists (one entry
per key, in one fixed iteration order — Go map iteration order is
unspecified, but nothing the claims touch depends on it); the `GroupOrder`
nil-vs-empty distinction is an `Option`. -/
structure Config where
  version : Int
  system : SystemConfig
  auth : AuthConfig
  contactGroups : List (String × ContactGroup)
  groupOrder : Option (List String)
  notifiers : List NotifierConfig
  monitors : List Monitor
  deriving DecidableEq, Repr

/-- `Monitor.IsEnabled`: enabled unless explicitly set to false. -/
def Monitor.IsEnabled (m : Monitor) : Bool :=
  m.enabled.getD true

/-- The GroupOrder reconciliation at the end of `ApplyDefaults`: drop stale
and duplicate ids, then append the group ids not yet listed. -/
def reconcileGroupOrder (existing : List String) (go : List String) : List String :=
  let clean := go.foldl
    (fun acc gid => if existing.contains gid && !acc.contains gid then acc ++ [gid] else acc) []
  clean ++ existing.filter (fun gid => !clean.contains gid)

/-- `Config.ApplyDefaults`.  `tz` stands for `detectTimezone()` and `gen`
for `generateID()` (indexed by position — the Go function draws random
bytes); neither value influences validation of the fields the claims use. -/
def ApplyDefaults (tz : String) (gen : Nat → String) (c : Config) : Config :=
  let system : SystemConfig :=
    { bindAddress := if c.system.bindAddress = "" then ":8080" else c.system.bindAddress
      checkInterval := if c.system.checkInterval ≤ 0 then 60 else c.system.checkInterval
      maxHistoryPoints := if c.system.maxHistoryPoints ≤ 0 then 1440 else c.system.maxHistoryPoints
      dumpInterval := if c.system.dumpInterval ≤ 0 then 300 else c.system.dumpInterval
      sessionTTL := if c.system.sessionTTL ≤ 0 then 86400 else c.system.sessionTTL
      logLevel := if c.system.logLevel = "" then "info" else c.system.logLevel
      maxMonitors := if c.system.maxMonitors ≤ 0 then 500 else c.system.maxMonitors
      timezone := if c.system.timezone = "" then tz else c.system.timezone }
  let auth : AuthConfig :=
    { c.auth with
      maxLoginAttempts := if c.auth.maxLoginAttempts ≤ 0 then 5 else c.auth.maxLoginAttempts
      lockoutDuration := if c.auth.lockoutDuration ≤ 0 then 900 else c.auth.lockoutDuration }
  -- migrate notifiers out of contact groups, drop the legacy _default group
  let migrated := c.notifiers ++ (c.contactGroups.map (fun kv => kv.2.notifiers)).flatten
  let groups := (c.contactGroups.map
      (fun kv => (kv.1, { kv.2 with notifiers := ([] : List NotifierConfig) }))).filter
    (fun kv => kv.1 ≠ "_default")
  -- ensure all notifiers have ids
  let notifiers := migrated.enum.map
    (fun ni => if ni.2.id = "" then { ni.2 with id := gen ni.1 } else ni.2)
  let existing := groups.map Prod.fst
  let groupOrder :=
    match c.groupOrder with
    | none => existing
    | some go => reconcileGroupOrder existing go
  { c with system := system, auth := auth, contactGroups := groups
           groupOrder := some groupOrder, notifiers := notifiers }

/-- The effective interval `Validate` measures the timeout against: the
monitor's own interval, or the system check interval when unset/non-positive. -/
def effectiveInterval (sys : SystemConfig) (m : Monitor) : Int :=
  if m.interval ≤ 0 then sys.checkInterval else m.interval

def validLogLevel (s : String) : Bool :=
  decide (s = "debug") || decide (s = "info") || decide (s = "warn") || decide (s = "error")

def validMonitorType (s : String) : Bool :=
  decide (s = "http") || decide (s = "tcp") || decide (s = "ping")

/-- The error strings the per-monitor loop of `Config.Validate` appends for
one monitor.  `urlOk` abstracts Go's `url.Parse`-based http(s)-URL check
(its verdict is irrelevant to the claims proved here); `dup` says whether
the id was already seen. -/
def monitorErrs (urlOk : String → Bool) (c : Config) (i : Nat) (m : Monitor)
    (dup : Bool) : List String :=
  (if m.id = "" then ["monitors[" ++ toString i ++ "].id is required"] else [])
  ++ (if dup then ["monitors[" ++ toString i ++ "].id is duplicate: " ++ m.id] else [])
  ++ (if m.name = "" then ["monitors[" ++ toString i ++ "].name is required"] else [])
  ++ (if validMonitorType m.typ then []
      else ["monitors[" ++ toString i ++ "].type must be http, tcp, or ping"])
  ++ (if m.target = "" then ["monitors[" ++ toString i ++ "].target is required"]
      else if m.typ = "http" && !(urlOk m.target) then
        ["monitors[" ++ toString i ++ "].target must be a valid http(s) URL"]
      else [])
  ++ (if m.groupID ≠ "" && (c.contactGroups.lookup m.groupID) = none then
        ["monitors[" ++ toString i ++ "].group_id references unknown contact group"]
      else [])
  ++ (if m.timeout ≤ 0 then ["monitors[" ++ toString i ++ "].timeout must be > 0"]
      else if effectiveInterval c.system m ≤ m.timeout then
        ["monitors[" ++ toString i ++ "].timeout (" ++ toString m.timeout
          ++ ") must be < interval (" ++ toString (effectiveInterval c.system m) ++ ")"]
      else [])
  ++ (if m.maxRetries < 0 then ["monitors[" ++ toString i ++ "].max_retries must be >= 0"] else [])
  ++ (if m.retryInterval < 0 then ["monitors[" ++ toString i ++ "].retry_interval must be >= 0"] else [])
  ++ (if m.reminderInterval < 0 then ["monitors[" ++ toString i ++ "].reminder_interval must be >= 0"] else [])

/-- The per-monitor loop of `Config.Validate`, tracking seen ids. -/
def monitorsErrs (urlOk : String → Bool) (c : Config) (i : Nat) (seen : List String) :
    List Monitor → List String
  | [] => []
  | m :: rest =>
    monitorErrs urlOk c i m (seen.contains m.id)
      ++ monitorsErrs urlOk c (i + 1) (m.id :: seen) rest

/-- `Config.Validate`: the accumulated list of validation errors; the Go
function returns a (structured, multi-line) error iff this list is nonempty. -/
def validateErrors (urlOk : String → Bool) (c : Config) : List String :=
  (if c.system.checkInterval < 5 then ["system.check_interval must be >= 5 seconds"] else [])
  ++ (if c.auth.username = "" then ["auth.username is required"] else [])
  ++ (if validLogLevel c.system.logLevel then []
      else ["system.log_level must be one of: debug, info, warn, error"])
  ++ (if c.system.maxMonitors < (c.monitors.length : Int) then
        ["monitors count exceeds max_monitors"] else [])
  ++ monitorsErrs urlOk c 0 [] c.monitors

/-- `Manager.Save`: stamp the version, apply defaults, validate; on
validation failure return the error and leave the live configuration
untouched; on success persist and swap the live configuration.  (The
atomic file write is modelled as succeeding; a write failure also leaves
the live configuration untouched.) -/
def Save (tz : String) (gen : Nat → String) (urlOk : String → Bool)
    (live : Config) (cfg : Config) : Except (List String) Unit × Config :=
  let cfg' := ApplyDefaults tz gen { cfg with version := 1 }
  let errs := validateErrors urlOk cfg'
  if errs.isEmpty then (Except.ok (), cfg')
  else (Except.error errs, live)

theorem ApplyDefaults_monitors (tz : String) (gen : Nat → String) (c : Config) :
    (ApplyDefaults tz gen c).monitors = c.monitors := rfl

theorem monitorErrs_ne_nil (urlOk : String → Bool) (c : Config) (i : Nat)
    (m : Monitor) (dup : Bool)
    (hto : effectiveInterval c.system m ≤ m.timeout) :
    monitorErrs urlOk c i m dup ≠ [] := by
  intro heq
  unfold monitorErrs at heq
  simp only [List.append_eq_nil] at heq
  have h := heq.1.1.1.2
  by_cases ht0 : m.timeout ≤ 0 <;> simp [ht0, hto] at h

theorem monitorsErrs_ne_nil (urlOk : String → Bool) (c : Config) :
    ∀ (ms : List Monitor) (i : Nat) (seen : List String),
      (∃ m ∈ ms, effectiveInterval c.system m ≤ m.timeout) →
      monitorsErrs urlOk c i seen ms ≠ [] := by
  intro ms
  induction ms with
  | nil => intro i seen h; simp at h
  | cons m rest ih =>
    intro i seen h heq
    simp only [monitorsErrs, List.append_eq_nil] at heq
    rcases h with ⟨m', hm', hto⟩
    rcases List.mem_cons.mp hm' with rfl | hm'
    · exact monitorErrs_ne_nil urlOk c i m' (seen.contains m'.id) hto heq.1
    · exact ih (i + 1) (m.id :: seen) ⟨m', hm', hto⟩ heq.2

/-- C8: saving a configuration in which some monitor's timeout is at least
its effective interval (its own interval, or the system check interval once
defaults are applied, when unset or non-positive) fails validation with a
structured, nonempty error list, and the live configuration is unchanged. -/
theorem C8_timeout_validation (tz : String) (gen : Nat → String)
    (urlOk : String → Bool) (live cfg : Config) (m : Monitor)
    (hm : m ∈ cfg.monitors)
    (hto : effectiveInterval (ApplyDefaults tz gen { cfg with version := 1 }).system m
        ≤ m.timeout) :
    ∃ errs, Save tz gen urlOk live cfg = (Except.error errs, live) ∧ errs ≠ [] := by
  have hm' : m ∈ (ApplyDefaults tz gen { cfg with version := 1 }).monitors := by
    rw [ApplyDefaults_monitors]
    exact hm
  have hne : validateErrors urlOk (ApplyDefaults tz gen { cfg with version := 1 }) ≠ [] := by
    intro heq
    unfold validateErrors at heq
    simp only [List.append_eq_nil] at heq
    exact monitorsErrs_ne_nil urlOk _ _ 0 [] ⟨m, hm', hto⟩ heq.2
  refine ⟨validateErrors urlOk (ApplyDefaults tz gen { cfg with version := 1 }), ?_, hne⟩
  unfold Save
  rw [if_neg (by simpa [List.isEmpty_iff] using hne)]

/-- C8 witness: a monitor with `timeout = 10, interval = 10` is rejected and
the live configuration survives. -/
theorem C8_timeout_validation_witness :
    ∃ errs, Save "UTC" (fun _ => "gid") (fun _ => true)
        { version := 1
          system := { bindAddress := ":8080", checkInterval := 60, maxHistoryPoints := 1440
                      dumpInterval := 300, sessionTTL := 86400, logLevel := "info"
                      maxMonitors := 500, timezone := "UTC" }
          auth := { username := "admin", passwordHash := "h", maxLoginAttempts := 5
                    lockoutDuration := 900, sso := { enabled := false } }
          contactGroups := [], groupOrder := none, notifiers := [], monitors := [] }
        { version := 1
          system := { bindAddress := ":8080", checkInterval := 60, maxHistoryPoints := 1440
                      dumpInterval := 300, sessionTTL := 86400, logLevel := "info"
                      maxMonitors := 500, timezone := "UTC" }
          auth := { username := "admin", passwordHash := "h", maxLoginAttempts := 5
                    lockoutDuration := 900, sso := { enabled := false } }
          contactGroups := [], groupOrder := none, notifiers := []
          monitors := [{ id := "m1", name := "m1", typ := "tcp", target := "h:1"
                         groupID := "", interval := 10, timeout := 10, maxRetries := 3
                         retryInterval := 0, reminderInterval := 0, ignoreTLS := false
                         enabled := none, notifierIDs := [] }] }
      = (Except.error errs,
         { version := 1
           system := { bindAddress := ":8080", checkInterval := 60, maxHistoryPoints := 1440
                       dumpInterval := 300, sessionTTL := 86400, logLevel := "info"
                       maxMonitors := 500, timezone := "UTC" }
           auth := { username := "admin", passwordHash := "h", maxLoginAttempts := 5
                     lockoutDuration := 900, sso := { enabled := false } }
           contactGroups := [], groupOrder := none, notifiers := [], monitors := [] })
      ∧ errs ≠ [] :=
  C8_timeout_validation "UTC" (fun _ => "gid") (fun _ => true) _ _
    { id := "m1", name := "m1", typ := "tcp", target := "h:1"
      groupID := "", interval := 10, timeout := 10, maxRetries := 3
      retryInterval := 0, reminderInterval := 0, ignoreTLS := false
      enabled := none, notifierIDs := [] }
    (by simp) (by decide)

/-! ### Slice aliasing in `GetMonitor` / `RecordUp` -/

/-- A Go slice header over a backing array of incidents: a reference into
the heap plus the slice length (capacity is irrelevant to the accesses
modelled here). -/
structure Slice where
  ref : Nat
  len : Nat
  deriving DecidableEq, Repr

/-- Reading a slice dereferences its backing array. -/
def readSlice (heap : Nat → List Incident) (s : Slice) : List Incident :=
  (heap s.ref).take s.len

/-- `HistoryManager`, modelled with explicit slice headers and a heap of
backing arrays so that the aliasing behaviour of `cp.Incidents =
hm.incidents[id]` (a header copy, not an array copy) is visible.
`monitors` keeps, per id, the scalar `IsUp` field standing for the
value-copied struct fields of `MonitorHistory`. -/
structure HistoryStoreA where
  monitors : List (String × Bool)
  incidents : List (String × Slice)
  heap : Nat → List Incident

/-- A nil/empty `[]Incident{}` slice: length 0, shares no element. -/
def emptySlice : Slice := { ref := 0, len := 0 }

/-- What `GetMonitor` returns: the struct copy `cp := *h` copies the scalar
fields by value, and `cp.Incidents = hm.incidents[id]` copies the slice
*header* — the backing array is shared with the live store. -/
structure MonitorHistoryView where
  isUp : Bool
  incidents : Slice
  deriving DecidableEq, Repr

/-- `HistoryManager.GetMonitor` in the aliasing model: `nil` if the id is
unknown; otherwise the scalar copy plus the live incident slice header
(an empty fresh slice when the id has no incident entry). -/
def GetMonitorA (hm : HistoryStoreA) (id : String) : Option MonitorHistoryView :=
  match hm.monitors.lookup id with
  | none => none
  | some isUp =>
    some { isUp := isUp, incidents := (hm.incidents.lookup id).getD emptySlice }

/-- `HistoryManager.RecordUp` in the aliasing model: set the monitor's
`IsUp`, then resolve the latest open incident *in place* — the loop writes
`incs[i].ResolvedAt = &now` through the slice, mutating the backing array
within the slice's length. -/
def RecordUpA (now : Int) (id : String) (hm : HistoryStoreA) : HistoryStoreA :=
  let monitors := hm.monitors.map (fun kv => if kv.1 = id then (kv.1, true) else kv)
  match hm.incidents.lookup id with
  | none => { hm with monitors := monitors }
  | some s =>
    { hm with
      monitors := monitors
      heap := fun r =>
        if r = s.ref then
          recordUpIncidents now ((hm.heap s.ref).take s.len) ++ (hm.heap s.ref).drop s.len
        else hm.heap r }

theorem resolveFirstOpen_length (now : Int) (l : List Incident) :
    (resolveFirstOpen now l).length = l.length := by
  induction l with
  | nil => rfl
  | cons inc rest ih =>
    by_cases hinc : inc.resolvedAt = none <;> simp [resolveFirstOpen, hinc, ih]

theorem recordUpIncidents_length (now : Int) (l : List Incident) :
    (recordUpIncidents now l).length = l.length := by
  unfold recordUpIncidents
  rw [List.length_reverse, resolveFirstOpen_length, List.length_reverse]

/-- C9 (amended): `GetMonitor` returns a *shallow* copy — the incident
slice header in the returned view is the store's live header, so an
in-place `RecordUp` resolution performed after the call is observable
through the previously returned view (its observed incident list becomes
the resolved one).  The deep-copy isolation the original claim states does
not hold. -/
theorem C9_shallow_copy_aliasing (hm : HistoryStoreA) (id : String)
    (v : MonitorHistoryView) (s : Slice) (now : Int)
    (hv : GetMonitorA hm id = some v)
    (hs : hm.incidents.lookup id = some s) :
    v.incidents = s
    ∧ readSlice (RecordUpA now id hm).heap v.incidents
        = recordUpIncidents now (readSlice hm.heap v.incidents) := by
  have hvs : v.incidents = s := by
    unfold GetMonitorA at hv
    cases hmon : hm.monitors.lookup id with
    | none => rw [hmon] at hv; exact absurd hv (by simp)
    | some b =>
      rw [hmon] at hv
      simp only [Option.some.injEq] at hv
      rw [← hv, hs]
      rfl
  refine ⟨hvs, ?_⟩
  unfold RecordUpA readSlice
  rw [hs]
  simp only [hvs, eq_self_iff_true, if_true]
  rw [List.take_append_eq_append_take]
  have hlen : (recordUpIncidents now ((hm.heap s.ref).take s.len)).length
      = min s.len (hm.heap s.ref).length := by
    rw [recordUpIncidents_length, List.length_take]
  rw [List.take_of_length_le (by rw [hlen]; omega)]
  have hnil : ((hm.heap s.ref).drop s.len).take
      (s.len - (recordUpIncidents now ((hm.heap s.ref).take s.len)).length) = [] := by
    rcases le_or_lt (hm.heap s.ref).length s.len with hle | hlt
    · rw [List.drop_eq_nil_of_le hle]
      simp
    · rw [hlen, Nat.min_eq_left (le_of_lt hlt)]
      simp
  rw [hnil, List.append_nil]

/-- C9 counterexample: a store with one open incident for `"m"`.  The view
returned by `GetMonitor` observes a different incident list after the store
runs `RecordUp` — a mutation of live state is observable through a
previously returned value, refuting the deep-copy claim. -/
theorem C9_aliasing_counterexample :
    ∃ v, GetMonitorA
        { monitors := [("m", false)]
          incidents := [("m", { ref := 0, len := 1 })]
          heap := fun r => if r = 0 then
              [{ typ := "down", startedAt := 5, resolvedAt := none
                 duration := 0, reason := "x" }]
            else [] } "m" = some v
      ∧ readSlice (RecordUpA 9 "m"
          { monitors := [("m", false)]
            incidents := [("m", { ref := 0, len := 1 })]
            heap := fun r => if r = 0 then
                [{ typ := "down", startedAt := 5, resolvedAt := none
                   duration := 0, reason := "x" }]
              else [] }).heap v.incidents
        ≠ readSlice
            (fun r => if r = 0 then
                [{ typ := "down", startedAt := 5, resolvedAt := none
                   duration := 0, reason := "x" }]
              else ([] : List Incident)) v.incidents := by
  refine ⟨{ isUp := false, incidents := { ref := 0, len := 1 } }, rfl, ?_⟩
  decide

/-- C9 witness: the aliasing fact at the concrete one-incident store. -/
theorem C9_shallow_copy_aliasing_witness :
    ({ isUp := false, incidents := { ref := 0, len := 1 } } : MonitorHistoryView).incidents
        = ({ ref := 0, len := 1 } : Slice)
    ∧ readSlice
        (RecordUpA 9 "m"
          { monitors := [("m", false)]
            incidents := [("m", { ref := 0, len := 1 })]
            heap := fun r => if r = 0 then
                [{ typ := "down", startedAt := 5, resolvedAt := none
                   duration := 0, reason := "x" }]
              else [] }).heap
        ({ isUp := false, incidents := { ref := 0, len := 1 } } : MonitorHistoryView).incidents
      = recordUpIncidents 9
          (readSlice
            (fun r => if r = 0 then
                [{ typ := "down", startedAt := 5, resolvedAt := none
                   duration := 0, reason := "x" }]
              else ([] : List Incident))
            ({ isUp := false, incidents := { ref := 0, len := 1 } } : MonitorHistoryView).incidents) :=
  C9_shallow_copy_aliasing
    { monitors := [("m", false)]
      incidents := [("m", { ref := 0, len := 1 })]
      heap := fun r => if r = 0 then
          [{ typ := "down", startedAt := 5, resolvedAt := none
             duration := 0, reason := "x" }]
        else [] }
    "m" { isUp := false, incidents := { ref := 0, len := 1 } } { ref := 0, len := 1 } 9
    rfl rfl

/-! ### Probe factory (`NewProber`) -/

/-- The three probe variants.  The HTTP variant records whether its
`tls.Config` sets `InsecureSkipVerify` (it is set to the struct's
`IgnoreTLS` field in `HTTPProber.Probe`). -/
inductive Prober where
  | http (ignoreTLS : Bool)
  | tcp
  | icmp
  deriving DecidableEq, Repr

/-- `NewProber`: the Go `switch` over the monitor type; every unknown type
falls through to `&HTTPProber{}` — whose `IgnoreTLS` field is the zero
value `false`, so certificates are verified. -/
def NewProber (monitorType : String) (ignoreTLS : Bool) : Prober :=
  if monitorType = "http" then Prober.http ignoreTLS
  else if monitorType = "tcp" then Prober.tcp
  else if monitorType = "ping" then Prober.icmp
  else Prober.http false

/-- The `InsecureSkipVerify` flag of the TLS client configuration a prober
would use; only the HTTP variant has one. -/
def proberInsecureSkipVerify : Prober → Option Bool
  | Prober.http ignoreTLS => some ignoreTLS
  | Prober.tcp => none
  | Prober.icmp => none

/-- C10: for every monitor-type string other than `"http"`, `"tcp"` and
`"ping"`, and for either value of the ignore-TLS flag, the factory returns
the HTTP variant with certificate verification enabled
(`InsecureSkipVerify = false`): the flag is honored only for `"http"`. -/
theorem C10_unknown_kind_verifies_tls (t : String) (b : Bool)
    (h1 : t ≠ "http") (h2 : t ≠ "tcp") (h3 : t ≠ "ping") :
    NewProber t b = Prober.http false
    ∧ proberInsecureSkipVerify (NewProber t b) = some false := by
  have h : NewProber t b = Prober.http false := by
    unfold NewProber
    rw [if_neg h1, if_neg h2, if_neg h3]
  exact ⟨h, by rw [h]; rfl⟩

/-- C10 witness: an unknown kind `"dns"` with `ignoreTLS = true` still
yields the verifying HTTP prober. -/
theorem C10_unknown_kind_verifies_tls_witness :
    NewProber "dns" true = Prober.http false
    ∧ proberInsecureSkipVerify (NewProber "dns" true) = some false :=
  C10_unknown_kind_verifies_tls "dns" true (by decide) (by decide) (by decide)

end Wink
